import Mathlib

/-!
Shallow embedding of `src/index.js` from the `clean_js` repository.

The script binds a constant threshold `MAX_ELIGIBILITY_AGE = 100`, a literal
list `users` of three records (fields `name`, `age`, `loans`), computes

  `totalLoans = users.filter((user) => user.age < MAX_ELIGIBILITY_AGE)
                     .reduce((total, user) => total + user.loans, 0)`

and prints the result with `console.log(totalLoans)`.

Records become a structure, JS arrays become `List`, `Array.prototype.filter`
becomes `List.filter`, `Array.prototype.reduce` with an initial accumulator
becomes `List.foldl`, and the single `console.log` becomes a one-element
output trace.  The ages and loan counts are small integers, far below any
floating-point precision boundary, so they are embedded as `Int`.
-/

/-- A record of the literal `users` array in `src/index.js`:
`{ name: ..., age: ..., loans: ... }`. -/
structure User where
  name : String
  age : Int
  loans : Int
deriving DecidableEq, Repr

/-- `const MAX_ELIGIBILITY_AGE = 100;` (src/index.js line 1). -/
def MAX_ELIGIBILITY_AGE : Int := 100

/-- The literal `users` array (src/index.js lines 3-7). -/
def users : List User :=
  [⟨"Alice", 30, 2⟩, ⟨"Bob", 29, 4⟩, ⟨"Dragon", 1000, 40⟩]

/-- The filter-then-reduce pipeline of src/index.js lines 9-11, parameterised
by the input list and the threshold:
`us.filter((user) => user.age < T).reduce((total, user) => total + user.loans, 0)`. -/
def totalLoansOf (us : List User) (T : Int) : Int :=
  (us.filter (fun user => decide (user.age < T))).foldl
    (fun total user => total + user.loans) 0

/-- `const totalLoans = ...` (src/index.js lines 9-11): the pipeline applied to
the literal `users` list at the constant threshold. -/
def totalLoans : Int := totalLoansOf users MAX_ELIGIBILITY_AGE

/-- The state of the script after it has run: the (immutable) bindings and the
text written to standard output. -/
structure ScriptState where
  users : List User
  totalLoans : Int
  output : List String
deriving DecidableEq, Repr

/-- Running src/index.js: the `const` bindings are created once and
`console.log(totalLoans)` appends one line to standard output. -/
def runScript : ScriptState :=
  ⟨users, totalLoans, [toString totalLoans]⟩

/-- Sum of the `loans` fields over exactly the records with `age < T`
(the spec's description of the result, stated independently of the
fold used by the code). -/
def sumOfEligibleLoans (us : List User) (T : Int) : Int :=
  ((us.filter (fun user => decide (user.age < T))).map User.loans).sum

/-- A single left fold that adds a record's `loans` exactly when its
`age < T` (the one-pass pipeline of claim C8). -/
def totalLoansSinglePass (us : List User) (T : Int) : Int :=
  us.foldl (fun total user => if user.age < T then total + user.loans else total) 0

/-- `Array.prototype.filter` with a callback that, like every JS callback, may
in principle signal an error: the translation of the script's callback returns
`Except.ok` on every record. -/
def filterE (p : User → Except String Bool) : List User → Except String (List User)
  | [] => Except.ok []
  | user :: rest =>
      match p user with
      | Except.error e => Except.error e
      | Except.ok keep =>
          match filterE p rest with
          | Except.error e => Except.error e
          | Except.ok tail => Except.ok (if keep then user :: tail else tail)

/-- `Array.prototype.reduce` with an initial accumulator and a possibly
failing callback. -/
def reduceE (f : Int → User → Except String Int) (acc : Int) :
    List User → Except String Int
  | [] => Except.ok acc
  | user :: rest =>
      match f acc user with
      | Except.error e => Except.error e
      | Except.ok a => reduceE f a rest

/-- The pipeline of src/index.js lines 9-11 with every callback invocation
instrumented for failure: the comparison `user.age < T` and the addition
`total + user.loans` are total, so each step returns `Except.ok`. -/
def totalLoansE (us : List User) (T : Int) : Except String Int :=
  match filterE (fun user => Except.ok (decide (user.age < T))) us with
  | Except.error e => Except.error e
  | Except.ok eligible =>
      reduceE (fun total user => Except.ok (total + user.loans)) 0 eligible

/-! ### Helper lemmas -/

theorem foldl_add_loans (l : List User) (a : Int) :
    l.foldl (fun total user => total + user.loans) a = a + (l.map User.loans).sum := by
  induction l generalizing a with
  | nil => simp
  | cons u rest ih =>
      simp only [List.foldl_cons, List.map_cons, List.sum_cons, ih]
      ring

theorem totalLoansOf_eq (us : List User) (T : Int) :
    totalLoansOf us T
      = ((us.filter (fun user => decide (user.age < T))).map User.loans).sum := by
  simp [totalLoansOf, foldl_add_loans]

theorem filterE_ok (p : User → Bool) (l : List User) :
    filterE (fun user => Except.ok (p user)) l = Except.ok (l.filter p) := by
  induction l with
  | nil => rfl
  | cons u rest ih => simp [filterE, ih, List.filter_cons]

theorem reduceE_ok (g : Int → User → Int) (a : Int) (l : List User) :
    reduceE (fun total user => Except.ok (g total user)) a l
      = Except.ok (l.foldl g a) := by
  induction l generalizing a with
  | nil => rfl
  | cons u rest ih => simp [reduceE, ih, List.foldl_cons]

/-! ### Claims -/

/-- C1: for every list of records and every threshold `T`, the
filter-then-reduce computation returns the sum of the `loans` fields over
exactly those records whose `age` is strictly less than `T`. -/
theorem totalLoansOf_eq_sumOfEligibleLoans (us : List User) (T : Int) :
    totalLoansOf us T = sumOfEligibleLoans us T :=
  totalLoansOf_eq us T

/-- C2: on the hard-coded input list with threshold `MAX_ELIGIBILITY_AGE = 100`
the computed total is `6`, and the script's single observable effect is
printing that integer to standard output. -/
theorem runScript_prints_six :
    runScript.totalLoans = 6 ∧ runScript.output = ["6"] ∧
      runScript.output.length = 1 := by
  refine ⟨by decide, ?_, by decide⟩
  have h : totalLoans = 6 := by decide
  simp only [runScript, h]
  rfl

/-- C3: the filter step keeps a record exactly when its `age` is strictly
below the constant threshold `100`; on the literal list it keeps Alice and
Bob and excludes Dragon. -/
theorem filter_keeps_under_threshold :
    (∀ (us : List User) (u : User),
        u ∈ us.filter (fun user => decide (user.age < MAX_ELIGIBILITY_AGE)) ↔
          u ∈ us ∧ u.age < MAX_ELIGIBILITY_AGE) ∧
      users.filter (fun user => decide (user.age < MAX_ELIGIBILITY_AGE))
        = [⟨"Alice", 30, 2⟩, ⟨"Bob", 29, 4⟩] := by
  constructor
  · intro us u
    simp [List.mem_filter]
  · decide

/-- C4: for every list of records and every threshold `T`, if no record has
`age < T` then the computed result is `0`. -/
theorem totalLoansOf_eq_zero_of_none_eligible (us : List User) (T : Int)
    (h : ∀ u ∈ us, ¬ u.age < T) : totalLoansOf us T = 0 := by
  rw [totalLoansOf_eq]
  have hf : us.filter (fun user => decide (user.age < T)) = [] := by
    simp only [List.filter_eq_nil_iff, decide_eq_true_eq]
    exact h
  simp [hf]

/-- Witness for C4 at a concrete input: the one-record list containing Dragon
(age 1000) with threshold 100, and in particular the empty list. -/
theorem totalLoansOf_eq_zero_of_none_eligible_witness :
    totalLoansOf [⟨"Dragon", 1000, 40⟩] 100 = 0 ∧ totalLoansOf [] 100 = 0 :=
  ⟨totalLoansOf_eq_zero_of_none_eligible [⟨"Dragon", 1000, 40⟩] 100 (by decide),
   totalLoansOf_eq_zero_of_none_eligible [] 100 (by decide)⟩

/-- C5: the computation is a deterministic pure function of its inputs: two
runs on equal lists and equal thresholds compute equal results. -/
theorem totalLoansOf_deterministic (us₁ us₂ : List User) (T₁ T₂ : Int)
    (hus : us₁ = us₂) (hT : T₁ = T₂) :
    totalLoansOf us₁ T₁ = totalLoansOf us₂ T₂ := by
  rw [hus, hT]

/-- Witness for C5 at a concrete input: two runs on the literal `users` list
with threshold 100 agree. -/
theorem totalLoansOf_deterministic_witness :
    totalLoansOf users 100 = totalLoansOf users 100 :=
  totalLoansOf_deterministic users users 100 100 rfl rfl

/-- C6: the input list is never mutated: after the script runs, the `users`
binding still holds the initial literal value, with the same length, the same
records and the same fields. -/
theorem runScript_users_unchanged :
    runScript.users = users ∧
      runScript.users = [⟨"Alice", 30, 2⟩, ⟨"Bob", 29, 4⟩, ⟨"Dragon", 1000, 40⟩] ∧
      runScript.users.length = 3 := by
  refine ⟨rfl, by decide, by decide⟩

/-- C7: for every list of records and every threshold `T`, the computation
never fails: the failure-instrumented evaluation of the pipeline always
returns `Except.ok` with the computed total, never an error. -/
theorem totalLoansE_never_fails (us : List User) (T : Int) :
    totalLoansE us T = Except.ok (totalLoansOf us T) := by
  simp [totalLoansE, filterE_ok, reduceE_ok, totalLoansOf]

/-- C8: for every list of records and every threshold `T`, the two-pass
pipeline (filter by `age < T`, then reduce summing `loans` from `0`) equals
the single left fold that adds `loans` exactly when `age < T`. -/
theorem totalLoansOf_eq_singlePass (us : List User) (T : Int) :
    totalLoansOf us T = totalLoansSinglePass us T := by
  rw [totalLoansOf_eq]
  suffices h : ∀ a : Int,
      us.foldl (fun total user => if user.age < T then total + user.loans else total) a
        = a + ((us.filter (fun user => decide (user.age < T))).map User.loans).sum by
    simpa [totalLoansSinglePass] using (h 0).symm
  induction us with
  | nil => simp
  | cons u rest ih =>
      intro a
      by_cases h : u.age < T
      · simp [List.foldl_cons, List.filter_cons, h, ih, add_assoc]
      · simp [List.foldl_cons, List.filter_cons, h, ih]

/-- C9: for every list of records and every threshold `T`, the result is
invariant under permutation of the input list. -/
theorem totalLoansOf_perm_invariant (us₁ us₂ : List User) (T : Int)
    (h : us₁.Perm us₂) : totalLoansOf us₁ T = totalLoansOf us₂ T := by
  rw [totalLoansOf_eq, totalLoansOf_eq]
  exact ((h.filter (fun user => decide (user.age < T))).map User.loans).sum_eq

/-- Witness for C9 at a concrete input: swapping Alice and Bob leaves the
total unchanged. -/
theorem totalLoansOf_perm_invariant_witness :
    totalLoansOf [⟨"Bob", 29, 4⟩, ⟨"Alice", 30, 2⟩] 100
      = totalLoansOf [⟨"Alice", 30, 2⟩, ⟨"Bob", 29, 4⟩] 100 :=
  totalLoansOf_perm_invariant [⟨"Bob", 29, 4⟩, ⟨"Alice", 30, 2⟩]
    [⟨"Alice", 30, 2⟩, ⟨"Bob", 29, 4⟩] 100
    (List.Perm.swap (⟨"Alice", 30, 2⟩ : User) ⟨"Bob", 29, 4⟩ [])

/-- C10: appending a record whose `age` is at least the threshold leaves the
computed result unchanged. -/
theorem totalLoansOf_append_ineligible (us : List User) (T : Int) (r : User)
    (h : T ≤ r.age) : totalLoansOf (us ++ [r]) T = totalLoansOf us T := by
  rw [totalLoansOf_eq, totalLoansOf_eq, List.filter_append]
  have hr : ([r].filter (fun user => decide (user.age < T))) = [] := by
    simp [List.filter_cons, not_lt.mpr h]
  simp [hr]

/-- Witness for C10 at a concrete input: appending Dragon (age 1000 ≥ 100) to
the list of Alice and Bob leaves the total unchanged. -/
theorem totalLoansOf_append_ineligible_witness :
    totalLoansOf ([⟨"Alice", 30, 2⟩, ⟨"Bob", 29, 4⟩] ++ [⟨"Dragon", 1000, 40⟩]) 100
      = totalLoansOf [⟨"Alice", 30, 2⟩, ⟨"Bob", 29, 4⟩] 100 :=
  totalLoansOf_append_ineligible [⟨"Alice", 30, 2⟩, ⟨"Bob", 29, 4⟩] 100
    ⟨"Dragon", 1000, 40⟩ (by decide)
